import Mathlib

/-!
Shallow embedding of the AHisabKitab invoice application core
(src/components/InvoiceEditor.tsx, src/services/storageService.ts,
src/types.ts).

Modelling conventions:
* JavaScript numbers are modelled as exact rationals; `JsNum := Option ℚ`
  where `none` stands for NaN (and for `undefined` appearing in a numeric
  position, which behaves as NaN under arithmetic).  Arithmetic propagates
  `none`; comparisons with `none` are false except `!==`, which is true.
* `Number(x.toFixed(2))` is modelled as exact round-half-up (toward +inf)
  to 2 decimal places, per the ECMA toFixed specification applied to the
  exact rational value.
* JS objects with possibly-missing fields (spread of `undefined`) are
  modelled by `Option`-valued fields; an item all of whose fields are
  `none` plays the role of `undefined` / the empty object in the places
  this program can produce one.
* The random `generateId` is modelled by passing the freshly generated id
  as an explicit argument.
* `localStorage` for one user is modelled as the list of that user's
  invoices; JSON serialization round-trips numbers and strings exactly and
  is omitted.
-/

/-- Round-half-up (toward +infinity) to 2 decimal places: the exact-value
semantics of `Number(x.toFixed(2))`. -/
def round2 (q : ℚ) : ℚ := ((Rat.floor (q * 100 + 1 / 2) : ℤ) : ℚ) / 100

/-- A JavaScript number: a rational, or NaN (`none`). -/
abbrev JsNum := Option ℚ

/-- JS addition: NaN propagates. -/
def jadd : JsNum → JsNum → JsNum
  | some a, some b => some (a + b)
  | _, _ => none

/-- JS subtraction: NaN propagates. -/
def jsub : JsNum → JsNum → JsNum
  | some a, some b => some (a - b)
  | _, _ => none

/-- JS multiplication: NaN propagates (NaN * 0 is NaN in JS). -/
def jmul : JsNum → JsNum → JsNum
  | some a, some b => some (a * b)
  | _, _ => none

/-- JS division; division by zero is not modelled (it only occurs with the
constant divisor 100 in this program). -/
def jdiv : JsNum → JsNum → JsNum
  | some a, some b => if b = 0 then none else some (a / b)
  | _, _ => none

/-- The JS test `x > 0`: false when x is NaN/undefined. -/
def jsGt0 : JsNum → Bool
  | some a => decide (0 < a)
  | none => false

/-- The JS test `x !== 0`: true when x is NaN/undefined. -/
def jsNe0 : JsNum → Bool
  | some a => decide (a ≠ 0)
  | none => true

/-- `Number(x.toFixed(2))`: round to 2 decimals; NaN stays NaN. -/
def jsToFixed2 : JsNum → JsNum
  | some a => some (round2 a)
  | none => none

/-- src/types.ts InvoiceItem.  Fields are `Option`-valued so that objects
with missing fields (produced by spreading `undefined`) are representable;
a normal item has every field `some`. -/
structure InvoiceItem where
  id : Option String
  name : Option String
  qty : JsNum
  rate : JsNum
  tp : JsNum
  discount : JsNum
  totalPerPiece : JsNum
  totalAmount : JsNum
deriving DecidableEq

/-- src/types.ts PaymentRow. -/
structure PaymentRow where
  id : Option String
  narration : Option String
  amount : JsNum
deriving DecidableEq

/-- src/types.ts InvoiceStatus. -/
inductive InvoiceStatus where
  | pending
  | paid
deriving DecidableEq

/-- src/types.ts Invoice. -/
structure Invoice where
  id : String
  name : String
  date : String
  items : List InvoiceItem
  payments : List PaymentRow
  status : InvoiceStatus
  totalAmount : JsNum
  remainingBalance : JsNum
  createdAt : ℤ
deriving DecidableEq

/-- The value of `newItems[index]` when `index` is out of range, as seen by
every downstream field access: all fields read as `undefined`. -/
def undefItem : InvoiceItem :=
  { id := none, name := none, qty := none, rate := none, tp := none,
    discount := none, totalPerPiece := none, totalAmount := none }

/-- InvoiceEditor.tsx `calculateRow`: derives tp, totalPerPiece and
totalAmount from qty, rate and discount. -/
def calculateRow (item : InvoiceItem) : InvoiceItem :=
  let tp : JsNum := if jsGt0 item.rate then jmul item.rate (some (1 - 0.145)) else some 0
  let finalUnit : JsNum :=
    if jsNe0 item.discount then
      let baseForDiscount := jmul tp (some (1 - 0.15))
      let percentageDecimal := jdiv item.discount (some 100)
      jadd baseForDiscount (jmul baseForDiscount percentageDecimal)
    else
      tp
  let totalAmt := jmul finalUnit item.qty
  { item with
      tp := jsToFixed2 tp
      totalPerPiece := jsToFixed2 finalUnit
      totalAmount := jsToFixed2 totalAmt }

/-- The pre-rounding trade price computed inside `calculateRow`
(`rate > 0 ? rate * (1 - 0.145) : 0` before `toFixed`). -/
def rawTp (item : InvoiceItem) : JsNum :=
  if jsGt0 item.rate then jmul item.rate (some (1 - 0.145)) else some 0

/-- The pre-rounding effective unit price (`finalUnit`) computed inside
`calculateRow`, before `toFixed`. -/
def rawFinalUnit (item : InvoiceItem) : JsNum :=
  if jsNe0 item.discount then
    let baseForDiscount := jmul (rawTp item) (some (1 - 0.15))
    jadd baseForDiscount (jmul baseForDiscount (jdiv item.discount (some 100)))
  else
    rawTp item

/-- The field/value pairs `updateItem` is invoked with from the UI
(`name` with a string, `qty`, `rate`, `discount` with `Number(...)`). -/
inductive ItemField where
  | name (v : String)
  | qty (v : JsNum)
  | rate (v : JsNum)
  | discount (v : JsNum)

/-- `{ ...item, [field]: value }`. -/
def setField (item : InvoiceItem) : ItemField → InvoiceItem
  | .name v => { item with name := some v }
  | .qty v => { item with qty := v }
  | .rate v => { item with rate := v }
  | .discount v => { item with discount := v }

/-- The test `['rate', 'qty', 'discount'].includes(field)`. -/
def recalcField : ItemField → Bool
  | .name _ => false
  | _ => true

/-- JS array element assignment `l[i] = x`: in range it overwrites; past the
end it extends the array to length `i + 1`, the gap reading as `undefined`
(`hole`) to all downstream code in this program (which always copies the
array with spread before using it). -/
def jsSetAt (hole : α) (l : List α) (i : ℕ) (x : α) : List α :=
  if i < l.length then l.set i x
  else l ++ List.replicate (i - l.length) hole ++ [x]

/-- InvoiceEditor.tsx `updateItem`: copies the array, overwrites one field
of the element at `index` (spreading `undefined` when out of range),
re-deriving via `calculateRow` when the field is rate, qty or discount, and
writes the result back at `index`. -/
def updateItem (items : List InvoiceItem) (index : ℕ) (f : ItemField) :
    List InvoiceItem :=
  let currentItem := setField ((items.get? index).getD undefItem) f
  let newItem := if recalcField f then calculateRow currentItem else currentItem
  jsSetAt undefItem items index newItem

/-- The fresh blank item constructed by `addNewRow`. -/
def blankItem (newId : String) : InvoiceItem :=
  { id := some newId, name := some "", qty := some 0, rate := some 0,
    tp := some 0, discount := some 0, totalPerPiece := some 0,
    totalAmount := some 0 }

/-- InvoiceEditor.tsx `addNewRow`: appends a blank item (the generated id is
passed explicitly). -/
def addNewRow (newId : String) (items : List InvoiceItem) : List InvoiceItem :=
  items ++ [blankItem newId]

/-- InvoiceEditor.tsx `deleteRow`: `splice(index, 1)` guarded by
`items.length > 1`. -/
def deleteRow (items : List InvoiceItem) (index : ℕ) : List InvoiceItem :=
  if 1 < items.length then items.eraseIdx index else items

/-- InvoiceEditor.tsx `duplicateRow`: `{ ...items[index], id: generateId() }`
inserted by `splice(index + 1, 0, newItem)` (splice clamps the insertion
point to the array length). -/
def duplicateRow (newId : String) (items : List InvoiceItem) (index : ℕ) :
    List InvoiceItem :=
  let newItem := { (items.get? index).getD undefItem with id := some newId }
  List.insertIdx (min (index + 1) items.length) newItem items

/-- The value of `payments[index]` out of range: all fields `undefined`. -/
def undefPayment : PaymentRow := { id := none, narration := none, amount := none }

/-- The field/value pairs `updatePayment` is invoked with from the UI. -/
inductive PayField where
  | narration (v : String)
  | amount (v : JsNum)

/-- `{ ...payment, [field]: value }`. -/
def setPayField (p : PaymentRow) : PayField → PaymentRow
  | .narration v => { p with narration := some v }
  | .amount v => { p with amount := v }

/-- InvoiceEditor.tsx `addPaymentRow`. -/
def addPaymentRow (newId : String) (payments : List PaymentRow) :
    List PaymentRow :=
  payments ++ [{ id := some newId, narration := some "", amount := some 0 }]

/-- InvoiceEditor.tsx `updatePayment` (no derivation step). -/
def updatePayment (payments : List PaymentRow) (index : ℕ) (f : PayField) :
    List PaymentRow :=
  jsSetAt undefPayment payments index
    (setPayField ((payments.get? index).getD undefPayment) f)

/-- InvoiceEditor.tsx `deletePayment`: unguarded `splice(index, 1)`. -/
def deletePayment (payments : List PaymentRow) (index : ℕ) : List PaymentRow :=
  payments.eraseIdx index

/-- InvoiceEditor.tsx `grandTotal`:
`items.reduce((sum, item) => sum + item.totalAmount, 0)`. -/
def grandTotal (items : List InvoiceItem) : JsNum :=
  items.foldl (fun sum item => jadd sum item.totalAmount) (some 0)

/-- InvoiceEditor.tsx `totalPaid`:
`payments.reduce((sum, p) => sum + Number(p.amount), 0)` (`Number` on an
already-numeric value is the identity, NaN included). -/
def totalPaid (payments : List PaymentRow) : JsNum :=
  payments.foldl (fun sum p => jadd sum p.amount) (some 0)

/-- InvoiceEditor.tsx `remainingBalance = grandTotal - totalPaid`. -/
def remainingBalance (items : List InvoiceItem) (payments : List PaymentRow) :
    JsNum :=
  jsub (grandTotal items) (totalPaid payments)

/-- The `invoiceData` record assembled by InvoiceEditor.tsx `handleSave`:
`id: existingInvoiceId || generateId()` (the generated id is passed as
`newId`), totals recomputed from the current state, and
`createdAt: Date.now()` (the current time is passed as `now`). -/
def toSnapshot (existingInvoiceId : Option String) (newId : String)
    (invoiceName invoiceDate : String) (items : List InvoiceItem)
    (payments : List PaymentRow) (status : InvoiceStatus) (now : ℤ) : Invoice :=
  { id := existingInvoiceId.getD newId
    name := invoiceName
    date := invoiceDate
    items := items
    payments := payments
    status := status
    totalAmount := grandTotal items
    remainingBalance := remainingBalance items payments
    createdAt := now }

/-- InvoiceEditor.tsx `handleSave`: refuses (returns nothing) when the
invoice name is empty, otherwise produces the snapshot that is handed to
`storageService.saveInvoice`. -/
def handleSave (existingInvoiceId : Option String) (newId : String)
    (invoiceName invoiceDate : String) (items : List InvoiceItem)
    (payments : List PaymentRow) (status : InvoiceStatus) (now : ℤ) :
    Option Invoice :=
  if invoiceName = "" then none
  else some (toSnapshot existingInvoiceId newId invoiceName invoiceDate items
    payments status now)

/-- The in-memory editing state owned by one InvoiceEditor session. -/
structure EditorState where
  items : List InvoiceItem
  payments : List PaymentRow

/-- One user interaction routed to an Aggregator operation (freshly
generated ids are carried in the operation). -/
inductive AggOp where
  | addItem (newId : String)
  | updItem (index : ℕ) (f : ItemField)
  | delItem (index : ℕ)
  | dupItem (index : ℕ) (newId : String)
  | addPay (newId : String)
  | updPay (index : ℕ) (f : PayField)
  | delPay (index : ℕ)

/-- Effect of one Aggregator operation on the editing state. -/
def stepOp (s : EditorState) : AggOp → EditorState
  | .addItem newId => { s with items := addNewRow newId s.items }
  | .updItem index f => { s with items := updateItem s.items index f }
  | .delItem index => { s with items := deleteRow s.items index }
  | .dupItem index newId => { s with items := duplicateRow newId s.items index }
  | .addPay newId => { s with payments := addPaymentRow newId s.payments }
  | .updPay index f => { s with payments := updatePayment s.payments index f }
  | .delPay index => { s with payments := deletePayment s.payments index }

/-- A new-invoice editing session: `addNewRow` seeds one blank row. -/
def initState (newId : String) : EditorState :=
  { items := addNewRow newId [], payments := [] }

/-- storageService.ts `saveInvoice` for one user: replace the first stored
invoice whose id matches (`findIndex`), else push. -/
def saveInvoice (store : List Invoice) (invoice : Invoice) : List Invoice :=
  match store.findIdx? (fun inv => inv.id == invoice.id) with
  | some existingIndex => store.set existingIndex invoice
  | none => store ++ [invoice]

/-- Loading an invoice by id, as the editor does:
`storageService.getInvoices(username).find(i => i.id === existingInvoiceId)`
(`getInvoices` returns the stored list itself). -/
def loadInvoice (store : List Invoice) (invoiceId : String) : Option Invoice :=
  store.find? (fun inv => inv.id == invoiceId)

/-- Sanity scenario from the spec: rate 100, qty 2, discount 0 gives
tradePrice 85.50, effectiveUnitPrice 85.50 and lineTotal 171.00. -/
theorem scenario_rate100_qty2 :
    (calculateRow
      { id := some "a", name := some "x", qty := some 2, rate := some 100,
        tp := some 0, discount := some 0, totalPerPiece := some 0,
        totalAmount := some 0 }) =
      { id := some "a", name := some "x", qty := some 2, rate := some 100,
        tp := some (171 / 2), discount := some 0,
        totalPerPiece := some (171 / 2), totalAmount := some 171 } := by
  norm_num [calculateRow, jmul, jadd, jdiv, jsToFixed2, jsGt0, jsNe0, round2,
    Rat.floor]

/-- Sanity scenario from the spec: rate 100, qty 1, discount -10 gives
effectiveUnitPrice 65.41 and lineTotal 65.41. -/
theorem scenario_rate100_discount_neg10 :
    (calculateRow
      { id := some "a", name := some "x", qty := some 1, rate := some 100,
        tp := some 0, discount := some (-10), totalPerPiece := some 0,
        totalAmount := some 0 }).totalPerPiece = some (6541 / 100) ∧
    (calculateRow
      { id := some "a", name := some "x", qty := some 1, rate := some 100,
        tp := some 0, discount := some (-10), totalPerPiece := some 0,
        totalAmount := some 0 }).totalAmount = some (6541 / 100) := by
  norm_num [calculateRow, jmul, jadd, jdiv, jsToFixed2, jsGt0, jsNe0, round2,
    Rat.floor]

/-- The stored trade price is the rounding of the pre-rounding trade
price. -/
theorem calculateRow_tp (item : InvoiceItem) :
    (calculateRow item).tp = jsToFixed2 (rawTp item) := rfl

/-- The stored effective unit price is the rounding of the pre-rounding
effective unit price. -/
theorem calculateRow_totalPerPiece (item : InvoiceItem) :
    (calculateRow item).totalPerPiece = jsToFixed2 (rawFinalUnit item) := rfl

/-- The stored line total is the rounding of the pre-rounding effective
unit price times the quantity. -/
theorem calculateRow_totalAmount (item : InvoiceItem) :
    (calculateRow item).totalAmount =
      jsToFixed2 (jmul (rawFinalUnit item) item.qty) := rfl

/-- The pre-rounding trade price is never NaN. -/
theorem rawTp_isSome (item : InvoiceItem) : ∃ t : ℚ, rawTp item = some t := by
  unfold rawTp
  cases hr : item.rate with
  | none => exact ⟨0, by simp [jsGt0]⟩
  | some r =>
    by_cases h0 : 0 < r
    · exact ⟨r * (1 - 0.145), by simp [jsGt0, h0, jmul]⟩
    · exact ⟨0, by simp [jsGt0, h0]⟩

/-- The pre-rounding effective unit price is never NaN when the discount
field holds a number. -/
theorem rawFinalUnit_isSome (item : InvoiceItem) (d : ℚ)
    (hd : item.discount = some d) : ∃ u : ℚ, rawFinalUnit item = some u := by
  obtain ⟨t, ht⟩ := rawTp_isSome item
  unfold rawFinalUnit
  by_cases hd0 : d = 0
  · simp [jsNe0, hd, hd0, ht]
  · exact ⟨t * (1 - 0.15) + t * (1 - 0.15) * (d / 100),
      by simp [jsNe0, hd, hd0, ht, jmul, jadd, jdiv]⟩

def c1Item : InvoiceItem :=
  { id := some "a", name := some "", qty := some 10, rate := some 2,
    tp := some 0, discount := some (-10), totalPerPiece := some 0,
    totalAmount := some 0 }

/-- C1, counterexample: for the item qty = 10, rate = 2, discount = -10 the
code stores totalPerPiece = 1.31 and totalAmount = 13.08, but
round(1.31 * 10, 2) = 13.10: the stored lineTotal is NOT computed from the
already-rounded effectiveUnitPrice. -/
theorem c1_counterexample :
    (calculateRow c1Item).totalPerPiece = some (131 / 100) ∧
    (calculateRow c1Item).totalAmount = some (1308 / 100) ∧
    (calculateRow c1Item).totalAmount ≠
      jsToFixed2 (jmul (calculateRow c1Item).totalPerPiece c1Item.qty) := by
  norm_num [c1Item, calculateRow, jmul, jadd, jdiv, jsToFixed2, jsGt0, jsNe0,
    round2, Rat.floor]

/-- C1, amended: the stored lineTotal equals round(u * quantity, 2) where u
is the PRE-rounding effective unit price (the value whose rounding is
stored as effectiveUnitPrice); tradePrice, effectiveUnitPrice and lineTotal
are each rounded independently, but lineTotal is computed from the
unrounded effective unit price, so the claim's equation holds exactly when
the pre-rounding effective unit price already has at most 2 decimals. -/
theorem c1_lineTotal_amended (item : InvoiceItem) :
    (calculateRow item).totalAmount =
      jsToFixed2 (jmul (rawFinalUnit item) item.qty) ∧
    (jsToFixed2 (rawFinalUnit item) = rawFinalUnit item →
      (calculateRow item).totalAmount =
        jsToFixed2 (jmul (calculateRow item).totalPerPiece item.qty)) := by
  refine ⟨rfl, fun h => ?_⟩
  rw [calculateRow_totalAmount, calculateRow_totalPerPiece, h]

/-- C1, witness for the amended theorem at the blank item (whose
pre-rounding effective unit price 0 is exact at 2 decimals). -/
theorem c1_lineTotal_amended_witness :
    (calculateRow (blankItem "a")).totalAmount =
      jsToFixed2 (jmul (calculateRow (blankItem "a")).totalPerPiece
        (blankItem "a").qty) :=
  (c1_lineTotal_amended (blankItem "a")).2
    (by norm_num [blankItem, rawFinalUnit, rawTp, jsGt0, jsNe0, jsToFixed2,
      round2, Rat.floor])

/-- C2: for every item whose discount field holds a number d that is not 0,
the stored effectiveUnitPrice equals round(tradePrice * 0.85 *
(1 + d / 100), 2), where tradePrice is the pre-rounding trade price
(rate > 0 ? rate * (1 - 0.145) : 0) — per the claim, rounding happens only
at the final stage; the fixed 15% margin is applied regardless of the sign
of d, and d acts as a signed additive adjustment on the discount base. -/
theorem c2_effectiveUnitPrice (item : InvoiceItem) (d : ℚ)
    (hd : item.discount = some d) (hd0 : d ≠ 0) :
    (calculateRow item).totalPerPiece =
      jsToFixed2 (jmul (jmul (rawTp item) (some (0.85 : ℚ)))
        (jadd (some 1) (jdiv item.discount (some 100)))) := by
  obtain ⟨t, ht⟩ := rawTp_isSome item
  rw [calculateRow_totalPerPiece]
  unfold rawFinalUnit
  rw [ht, hd]
  simp [jsNe0, hd, hd0, jmul, jadd, jdiv, jsToFixed2]
  norm_num [round2]
  congr 2
  ring_nf

/-- C2, witness: rate = 100, discount = -10 gives effectiveUnitPrice
65.41 = round(85.5 * 0.85 * 0.9, 2). -/
theorem c2_effectiveUnitPrice_witness :
    (calculateRow
      { id := some "a", name := some "", qty := some 1, rate := some 100,
        tp := some 0, discount := some (-10), totalPerPiece := some 0,
        totalAmount := some 0 }).totalPerPiece =
      jsToFixed2 (jmul (jmul (rawTp
        { id := some "a", name := some "", qty := some 1, rate := some 100,
          tp := some 0, discount := some (-10), totalPerPiece := some 0,
          totalAmount := some 0 }) (some (0.85 : ℚ)))
        (jadd (some 1) (jdiv (some (-10)) (some 100)))) :=
  c2_effectiveUnitPrice _ (-10) rfl (by norm_num)

def c3Item : InvoiceItem :=
  { id := some "a", name := some "", qty := some 0, rate := some 100,
    tp := some 0, discount := some 0, totalPerPiece := some 0,
    totalAmount := some 0 }

/-- C3, counterexample: an item with quantity = 0 but rate = 100 does NOT
get all-zero derived fields: tradePrice and effectiveUnitPrice are 85.5. -/
theorem c3_counterexample :
    (calculateRow c3Item).tp ≠ some 0 ∧
    (calculateRow c3Item).totalPerPiece ≠ some 0 ∧
    (calculateRow c3Item).totalAmount = some 0 := by
  norm_num [c3Item, calculateRow, jmul, jadd, jdiv, jsToFixed2, jsGt0, jsNe0,
    round2, Rat.floor]

/-- C3, amended: rate = 0 (indeed any non-positive rate) yields all-zero
derived fields; quantity = 0 yields lineTotal = 0 only, while tradePrice
and effectiveUnitPrice are independent of the quantity. -/
theorem c3_zero_amended (item : InvoiceItem) (r q d : ℚ)
    (hr : item.rate = some r) (hq : item.qty = some q)
    (hd : item.discount = some d) :
    (¬ 0 < r →
      (calculateRow item).tp = some 0 ∧
      (calculateRow item).totalPerPiece = some 0 ∧
      (calculateRow item).totalAmount = some 0) ∧
    (q = 0 → (calculateRow item).totalAmount = some 0) ∧
    (∀ v : JsNum,
      (calculateRow { item with qty := v }).tp = (calculateRow item).tp ∧
      (calculateRow { item with qty := v }).totalPerPiece =
        (calculateRow item).totalPerPiece) := by
  refine ⟨fun hnr => ?_, fun hq0 => ?_, fun v => ⟨rfl, rfl⟩⟩
  · have htp : rawTp item = some 0 := by simp [rawTp, jsGt0, hr, hnr]
    have hfu : rawFinalUnit item = some 0 := by
      unfold rawFinalUnit
      by_cases hd0 : d = 0
      · simp [jsNe0, hd, hd0, htp]
      · simp [jsNe0, hd, hd0, htp, jmul, jadd, jdiv]
    rw [calculateRow_tp, calculateRow_totalPerPiece, calculateRow_totalAmount,
      htp, hfu, hq]
    norm_num [jmul, jsToFixed2, round2, Rat.floor]
  · obtain ⟨u, hu⟩ := rawFinalUnit_isSome item d hd
    rw [calculateRow_totalAmount, hu, hq, hq0]
    norm_num [jmul, jsToFixed2, round2, Rat.floor]

/-- C3, witness for the amended theorem: rate = -5 (non-positive) with
qty = 0 and discount = -10 derives all-zero fields. -/
theorem c3_zero_amended_witness :
    (calculateRow
      { id := some "a", name := some "", qty := some 0, rate := some (-5),
        tp := some 7, discount := some (-10), totalPerPiece := some 7,
        totalAmount := some 7 }).tp = some 0 ∧
    (calculateRow
      { id := some "a", name := some "", qty := some 0, rate := some (-5),
        tp := some 7, discount := some (-10), totalPerPiece := some 7,
        totalAmount := some 7 }).totalPerPiece = some 0 ∧
    (calculateRow
      { id := some "a", name := some "", qty := some 0, rate := some (-5),
        tp := some 7, discount := some (-10), totalPerPiece := some 7,
        totalAmount := some 7 }).totalAmount = some 0 :=
  (c3_zero_amended _ (-5) 0 (-10) rfl rfl rfl).1 (by norm_num)

/-- C4, counterexample: on a one-item list, `updateItem` at the
out-of-range index 1 signals no failure and does not leave the collection
unchanged: it appends an item carrying only the updated field (the other
fields read as undefined). -/
theorem c4_counterexample :
    updateItem [blankItem "a"] 1 (.name "x") =
      [blankItem "a", { undefItem with name := some "x" }] ∧
    (updateItem [blankItem "a"] 1 (.name "x")).length ≠
      [blankItem "a"].length := by
  refine ⟨?_, by simp [updateItem, jsSetAt, setField, recalcField]⟩
  simp [updateItem, jsSetAt, setField, recalcField, undefItem]

/-- C4, amended: `updateItem` with an out-of-range index is not an error
and does not leave the items collection unchanged: it extends the
collection to length index + 1 (the gap reading as undefined), keeping
every existing element, and writes at position index the item built from
spreading `undefined` and setting the one field (re-derived via
`calculateRow` when the field is rate, qty or discount). -/
theorem c4_out_of_range_amended (items : List InvoiceItem) (i : ℕ)
    (f : ItemField) (h : items.length ≤ i) :
    (updateItem items i f).length = i + 1 ∧
    (∀ j, j < items.length → (updateItem items i f).get? j = items.get? j) ∧
    (updateItem items i f).get? i =
      some (if recalcField f then calculateRow (setField undefItem f)
        else setField undefItem f) := by
  have hget : items.get? i = none := List.get?_len_le h
  have hnlt : ¬ i < items.length := Nat.not_lt.2 h
  unfold updateItem jsSetAt
  rw [hget]
  simp only [Option.getD_none, if_neg hnlt]
  refine ⟨?_, fun j hj => ?_, ?_⟩
  · simp only [List.length_append, List.length_replicate, List.length_cons,
      List.length_nil]
    omega
  · rw [List.get?_append
      (by simp only [List.length_append, List.length_replicate]; omega)]
    exact List.get?_append hj
  · rw [List.get?_append_right
      (by simp only [List.length_append, List.length_replicate]; omega)]
    simp only [List.length_append, List.length_replicate]
    have : i - (items.length + (i - items.length)) = 0 := by omega
    rw [this]
    rfl

/-- C4, witness for the amended theorem: updating index 0 of the empty
collection produces a collection of length 1. -/
theorem c4_out_of_range_amended_witness :
    (updateItem [] 0 (.name "x")).length = 0 + 1 :=
  (c4_out_of_range_amended [] 0 (.name "x") (by simp)).1

/-- C5: the code stamps `createdAt: Date.now()` unconditionally on every
save.  Evaluating the snapshot builder at the failing input: a first save
at time 5 stores createdAt = 5; a subsequent save of the same invoice
(same id) at time 9 stores createdAt = 9, not the previously stored 5. -/
theorem c5_createdAt_restamped :
    (toSnapshot none "i1" "Inv" "2025-01-01" [] [] .pending 5).createdAt = 5 ∧
    (toSnapshot (some "i1") "i2" "Inv" "2025-01-01" [] [] .pending 9).id =
      (toSnapshot none "i1" "Inv" "2025-01-01" [] [] .pending 5).id ∧
    (toSnapshot (some "i1") "i2" "Inv" "2025-01-01" [] [] .pending 9).createdAt
      = 9 ∧
    (9 : ℤ) ≠ 5 :=
  ⟨rfl, rfl, rfl, by norm_num⟩

/-- Every Aggregator operation keeps the items collection nonempty. -/
theorem stepOp_keeps_items_nonempty (s : EditorState) (op : AggOp)
    (hs : 1 ≤ s.items.length) : 1 ≤ (stepOp s op).items.length := by
  cases op with
  | addItem newId => simp [stepOp, addNewRow]
  | updItem i f =>
    simp only [stepOp]
    unfold updateItem jsSetAt
    by_cases h : i < s.items.length
    · simpa [h] using hs
    · simp [h]
      omega
  | delItem i =>
    simp only [stepOp]
    unfold deleteRow
    by_cases h : 1 < s.items.length
    · simp only [if_pos h, List.length_eraseIdx]
      split <;> omega
    · simpa [h] using hs
  | dupItem i newId =>
    simp only [stepOp]
    unfold duplicateRow
    rw [List.length_insertIdx _ _ (min_le_right _ _)]
    omega
  | addPay newId => exact hs
  | updPay i f => exact hs
  | delPay i => exact hs

/-- C6: `deleteRow` on a single-item collection is a no-op (for any index),
and starting from a new invoice seeded with one blank row, every sequence
of Aggregator operations leaves at least one line item. -/
theorem c6_delete_guard_and_invariant :
    (∀ (item : InvoiceItem) (i : ℕ), deleteRow [item] i = [item]) ∧
    (∀ (newId : String) (ops : List AggOp),
      1 ≤ (List.foldl stepOp (initState newId) ops).items.length) := by
  constructor
  · intro item i
    simp [deleteRow]
  · intro newId ops
    have key : ∀ (ops : List AggOp) (s : EditorState), 1 ≤ s.items.length →
        1 ≤ (List.foldl stepOp s ops).items.length := by
      intro ops
      induction ops with
      | nil => intro s hs; simpa using hs
      | cons op rest ih =>
        intro s hs
        rw [List.foldl_cons]
        exact ih _ (stepOp_keeps_items_nonempty s op hs)
    exact key ops _ (by simp [initState, addNewRow])

/-- `List.insertIdx` at a position inside the list splits it as
take ++ new element ++ drop. -/
theorem insertIdx_eq_take_cons_drop (a : α) :
    ∀ (n : ℕ) (l : List α), n ≤ l.length →
      List.insertIdx n a l = l.take n ++ a :: l.drop n := by
  intro n
  induction n with
  | zero => intro l _; simp
  | succ n ih =>
    intro l h
    cases l with
    | nil => simp at h
    | cons hd tl =>
      simp only [List.insertIdx_succ_cons, List.take_succ_cons,
        List.drop_succ_cons, List.cons_append, List.cons.injEq, true_and]
      exact ih tl (by simpa using h)

/-- C7: duplicating an in-range index i (the stored item is x, the freshly
generated id differs from x's id — `generateId` freshness is an assumption
since the source draws it from `Math.random`) inserts the clone right after
the source: positions up to i, in particular the original at i, are
unchanged, position i + 1 holds the clone, the tail is shifted, and the
clone agrees with x on every raw and derived field while its id differs. -/
theorem c7_duplicateRow (items : List InvoiceItem) (i : ℕ) (x : InvoiceItem)
    (newId : String) (hx : items.get? i = some x)
    (hid : some newId ≠ x.id) :
    duplicateRow newId items i =
      items.take (i + 1) ++ { x with id := some newId } :: items.drop (i + 1) ∧
    (duplicateRow newId items i).get? i = some x ∧
    (duplicateRow newId items i).get? (i + 1) =
      some { x with id := some newId } ∧
    ({ x with id := some newId }).id ≠ x.id ∧
    ({ x with id := some newId }).name = x.name ∧
    ({ x with id := some newId }).qty = x.qty ∧
    ({ x with id := some newId }).rate = x.rate ∧
    ({ x with id := some newId }).discount = x.discount ∧
    ({ x with id := some newId }).tp = x.tp ∧
    ({ x with id := some newId }).totalPerPiece = x.totalPerPiece ∧
    ({ x with id := some newId }).totalAmount = x.totalAmount := by
  have hlen : i < items.length := by
    by_contra hn
    rw [List.get?_len_le (Nat.le_of_not_lt hn)] at hx
    exact Option.noConfusion hx
  have hmin : min (i + 1) items.length = i + 1 := Nat.min_eq_left hlen
  have hmain : duplicateRow newId items i =
      items.take (i + 1) ++ { x with id := some newId } :: items.drop (i + 1) := by
    unfold duplicateRow
    rw [hx]
    simp only [Option.getD_some, hmin]
    exact insertIdx_eq_take_cons_drop _ (i + 1) items hlen
  refine ⟨hmain, ?_, ?_, hid, rfl, rfl, rfl, rfl, rfl, rfl, rfl⟩
  · rw [hmain,
      List.get?_append (by rw [List.length_take, hmin]; omega),
      List.get?_take (Nat.lt_succ_self i)]
    exact hx
  · rw [hmain,
      List.get?_append_right (by rw [List.length_take, hmin]),
      List.length_take, hmin, Nat.sub_self]
    rfl

/-- C7, witness: duplicating the single blank row with fresh id b. -/
theorem c7_duplicateRow_witness :
    duplicateRow "b" [blankItem "a"] 0 =
      [blankItem "a", { blankItem "a" with id := some "b" }] :=
  (c7_duplicateRow [blankItem "a"] 0 (blankItem "a") "b" rfl
    (by simp [blankItem])).1

/-- Folding JS addition over defined totals is rational summation. -/
theorem grandTotal_foldl_eq_sum :
    ∀ (items : List InvoiceItem) (qs : List ℚ) (a : ℚ),
      items.map (fun it => it.totalAmount) = qs.map some →
      items.foldl (fun sum item => jadd sum item.totalAmount) (some a) =
        some (a + qs.sum) := by
  intro items
  induction items with
  | nil =>
    intro qs a h
    have : qs = [] := by
      cases qs with
      | nil => rfl
      | cons q qs => simp at h
    subst this
    simp
  | cons it t ih =>
    intro qs a h
    cases qs with
    | nil => simp at h
    | cons q qs =>
      simp only [List.map_cons, List.cons.injEq] at h
      rw [List.foldl_cons, h.1]
      show List.foldl _ (jadd (some a) (some q)) t = _
      rw [show jadd (some a) (some q) = some (a + q) from rfl, ih qs _ h.2,
        List.sum_cons]
      ring_nf

/-- Folding JS addition over defined payment amounts is rational
summation. -/
theorem totalPaid_foldl_eq_sum :
    ∀ (payments : List PaymentRow) (ps : List ℚ) (a : ℚ),
      payments.map (fun p => p.amount) = ps.map some →
      payments.foldl (fun sum p => jadd sum p.amount) (some a) =
        some (a + ps.sum) := by
  intro payments
  induction payments with
  | nil =>
    intro ps a h
    have : ps = [] := by
      cases ps with
      | nil => rfl
      | cons q qs => simp at h
    subst this
    simp
  | cons p t ih =>
    intro ps a h
    cases ps with
    | nil => simp at h
    | cons q qs =>
      simp only [List.map_cons, List.cons.injEq] at h
      rw [List.foldl_cons, h.1]
      show List.foldl _ (jadd (some a) (some q)) t = _
      rw [show jadd (some a) (some q) = some (a + q) from rfl, ih qs _ h.2,
        List.sum_cons]
      ring_nf

/-- C8: when the stored line totals are the rationals qs and the payment
amounts are the rationals ps, grandTotal is the sum of qs, totalPaid the
sum of ps, and remainingBalance their difference — a plain subtraction,
never clamped, so overpayment makes it negative. -/
theorem c8_totals (items : List InvoiceItem) (payments : List PaymentRow)
    (qs ps : List ℚ)
    (hq : items.map (fun it => it.totalAmount) = qs.map some)
    (hp : payments.map (fun p => p.amount) = ps.map some) :
    grandTotal items = some qs.sum ∧
    totalPaid payments = some ps.sum ∧
    remainingBalance items payments = some (qs.sum - ps.sum) := by
  have h1 : grandTotal items = some qs.sum := by
    rw [grandTotal, grandTotal_foldl_eq_sum items qs 0 hq, zero_add]
  have h2 : totalPaid payments = some ps.sum := by
    rw [totalPaid, totalPaid_foldl_eq_sum payments ps 0 hp, zero_add]
  refine ⟨h1, h2, ?_⟩
  rw [remainingBalance, h1, h2]
  rfl

def c8Item : InvoiceItem :=
  { id := some "a", name := some "", qty := some 2, rate := some 100,
    tp := some (171 / 2), discount := some 0,
    totalPerPiece := some (171 / 2), totalAmount := some 171 }

def c8Pay1 : PaymentRow :=
  { id := some "p1", narration := some "", amount := some 100 }

def c8Pay2 : PaymentRow :=
  { id := some "p2", narration := some "", amount := some 100 }

/-- C8, witness: one line of 171 against payments of 100 and 100 leaves a
negative remaining balance of -29 (overpayment, not clamped). -/
theorem c8_totals_witness :
    remainingBalance [c8Item] [c8Pay1, c8Pay2] =
      some (([171] : List ℚ).sum - ([100, 100] : List ℚ).sum) ∧
    (([171] : List ℚ).sum - ([100, 100] : List ℚ).sum) < 0 :=
  ⟨(c8_totals [c8Item] [c8Pay1, c8Pay2] [171] [100, 100]
      (by simp [c8Item]) (by simp [c8Pay1, c8Pay2])).2.2,
    by norm_num⟩

/-- `saveInvoice` on a nonempty store: replace the head on an id match,
otherwise recurse into the tail. -/
theorem saveInvoice_cons (a : Invoice) (t : List Invoice) (inv : Invoice) :
    saveInvoice (a :: t) inv =
      if a.id == inv.id then inv :: t else a :: saveInvoice t inv := by
  unfold saveInvoice
  rw [List.findIdx?_cons]
  by_cases h : (a.id == inv.id) = true
  · simp [h]
  · simp only [h, if_false, Bool.false_eq_true]
    rw [List.findIdx?_succ]
    cases hfi : t.findIdx? (fun inv0 => inv0.id == inv.id) with
    | none => simp
    | some i => simp

/-- C9: saving an invoice and then loading by its id from the same store
returns exactly the invoice that was saved (structural equality of the
whole record, derived fields included). -/
theorem c9_save_load_roundtrip (store : List Invoice) (inv : Invoice) :
    loadInvoice (saveInvoice store inv) inv.id = some inv := by
  induction store with
  | nil => simp [saveInvoice, loadInvoice]
  | cons a t ih =>
    rw [saveInvoice_cons]
    by_cases h : (a.id == inv.id) = true
    · simp [h, loadInvoice]
    · rw [if_neg h]
      unfold loadInvoice
      rw [List.find?_cons_of_neg _ (by simpa using h)]
      exact ih

/-- When no stored invoice has the saved id, `saveInvoice` appends. -/
theorem saveInvoice_append_of_no_match (store : List Invoice) (inv : Invoice)
    (h : ∀ x ∈ store, x.id ≠ inv.id) : saveInvoice store inv = store ++ [inv] := by
  induction store with
  | nil => simp [saveInvoice]
  | cons a t ih =>
    rw [saveInvoice_cons, if_neg, ih fun x hx => h x (List.mem_cons_of_mem a hx),
      List.cons_append]
    simp only [beq_iff_eq]
    exact h a (List.mem_cons_self a t)

/-- When position i holds the first stored invoice with the saved id,
`saveInvoice` overwrites position i in place. -/
theorem saveInvoice_set_of_first_match (store : List Invoice) (inv : Invoice) :
    ∀ (i : ℕ) (x : Invoice), store.get? i = some x → x.id = inv.id →
      (∀ j y, j < i → store.get? j = some y → y.id ≠ inv.id) →
      saveInvoice store inv = store.set i inv := by
  induction store with
  | nil => intro i x hx; simp at hx
  | cons a t ih =>
    intro i x hx hmatch hfirst
    rw [saveInvoice_cons]
    cases i with
    | zero =>
      have hax : a = x := by simpa using hx
      rw [if_pos (by simp [hax, hmatch])]
      rfl
    | succ i =>
      have ha : a.id ≠ inv.id := hfirst 0 a (Nat.succ_pos i) rfl
      rw [if_neg (by simpa using ha),
        ih i x (by simpa using hx) hmatch
          fun j y hj hy => hfirst (j + 1) y (by omega) (by simpa using hy)]
      rfl

/-- Stored invoices whose id differs from the saved one keep their position
and value. -/
theorem saveInvoice_get?_of_ne (store : List Invoice) (inv : Invoice) :
    ∀ (j : ℕ) (y : Invoice), store.get? j = some y → y.id ≠ inv.id →
      (saveInvoice store inv).get? j = some y := by
  induction store with
  | nil => intro j y hy; simp at hy
  | cons a t ih =>
    intro j y hy hne
    rw [saveInvoice_cons]
    by_cases h : (a.id == inv.id) = true
    · rw [if_pos h]
      cases j with
      | zero =>
        exfalso
        have hay : a = y := by simpa using hy
        exact hne (hay ▸ (by simpa using h))
      | succ j => simpa using hy
    · rw [if_neg h]
      cases j with
      | zero => simpa using hy
      | succ j => simpa using ih j y (by simpa using hy) hne

/-- C10: `saveInvoice` is an upsert by id — if no stored invoice has the
saved id the invoice is appended at the end; if one does, the first such
position is overwritten in place; and every stored invoice with a
different id is left unchanged at its position. -/
theorem c10_saveInvoice_frame (store : List Invoice) (inv : Invoice) :
    ((∀ x ∈ store, x.id ≠ inv.id) → saveInvoice store inv = store ++ [inv]) ∧
    (∀ (i : ℕ) (x : Invoice), store.get? i = some x → x.id = inv.id →
      (∀ j y, j < i → store.get? j = some y → y.id ≠ inv.id) →
      saveInvoice store inv = store.set i inv) ∧
    (∀ (j : ℕ) (y : Invoice), store.get? j = some y → y.id ≠ inv.id →
      (saveInvoice store inv).get? j = some y) :=
  ⟨saveInvoice_append_of_no_match store inv,
    saveInvoice_set_of_first_match store inv,
    saveInvoice_get?_of_ne store inv⟩

def invA : Invoice :=
  { id := "a", name := "A", date := "2025-01-01", items := [], payments := [],
    status := .pending, totalAmount := some 0, remainingBalance := some 0,
    createdAt := 0 }

def invB : Invoice :=
  { id := "b", name := "B", date := "2025-01-02", items := [], payments := [],
    status := .pending, totalAmount := some 0, remainingBalance := some 0,
    createdAt := 0 }

/-- C10, witness: saving an invoice with a fresh id appends it and leaves
the previously stored invoice in place. -/
theorem c10_saveInvoice_frame_witness :
    saveInvoice [invA] invB = [invA] ++ [invB] :=
  (c10_saveInvoice_frame [invA] invB).1
    (by intro x hx; simp only [List.mem_singleton] at hx; subst hx
        simp [invA, invB])

/-- C6, witness: deleting from the singleton collection at index 0 is a
no-op, and one concrete operation sequence keeps the collection
nonempty. -/
theorem c6_delete_guard_and_invariant_witness :
    deleteRow [blankItem "a"] 0 = [blankItem "a"] ∧
    1 ≤ (List.foldl stepOp (initState "a") [AggOp.delItem 0]).items.length :=
  ⟨c6_delete_guard_and_invariant.1 (blankItem "a") 0,
    c6_delete_guard_and_invariant.2 "a" [AggOp.delItem 0]⟩

/-- C9, witness: saving invA into the empty store and loading by its id
returns invA itself. -/
theorem c9_save_load_roundtrip_witness :
    loadInvoice (saveInvoice [] invA) invA.id = some invA :=
  c9_save_load_roundtrip [] invA
